import Mathlib

set_option maxHeartbeats 1000000

/-!
Shallow embedding of the session multiplexer and tunnel engine of the
NoTerm core (src/src-tauri/src/ssh_manager.rs), together with theorems
settling the specification claims about it.  Pure fragments of the Rust
code are translated into executable Lean functions; the effectful parts
(network, threads, registries behind mutexes) are modelled by explicit
oracles for the outcomes of external calls, by action traces, and by a
sequential registry state.
-/

namespace NoTerm

/-! ### String helpers

Kernel-computable models of the Rust string primitives the code uses:
str::trim (drop leading and trailing whitespace) and
str::to_lowercase.  They operate on the character list of the string so
that concrete instances evaluate by decide. -/

/-- Model of Rust str::trim: remove leading and trailing whitespace
characters. -/
def strTrim (s : String) : String :=
  ⟨((s.data.dropWhile Char.isWhitespace).reverse.dropWhile Char.isWhitespace).reverse⟩

/-- Model of Rust str::to_lowercase, mapping each character to lower
case. -/
def strLower (s : String) : String :=
  ⟨s.data.map Char.toLower⟩

/-! ### Keepalive drivers (spawn_keepalive_for_session / spawn_keepalive_for_forward) -/

/-- Outcome of one call to Session::keepalive_send as seen by a driver
loop: an advised next-send delay in seconds, a transient EAGAIN error,
or a hard error. -/
inductive KeepaliveSendResult where
  | ok (wait : Nat)
  | errEagain
  | errOther
deriving DecidableEq, Repr

/-- Action a keepalive driver takes at the end of one loop iteration:
sleep for a number of seconds and poll again, or leave the loop. -/
inductive KeepaliveStep where
  | sleepFor (secs : Nat)
  | exitLoop
deriving DecidableEq, Repr

/-- Sleep computed by both driver loops from the wait value:
the source computes if wait == 0 then 5 else wait.min(60). -/
def keepaliveSleepSecs (wait : Nat) : Nat :=
  if wait = 0 then 5 else min wait 60

/-- One iteration of the loop in SshManager::spawn_keepalive_for_session:
on Ok(wait) sleep, on EAGAIN treat wait as 1 and sleep, on a hard error
leave the loop. -/
def sessionKeepaliveStep : KeepaliveSendResult → KeepaliveStep
  | .ok wait => .sleepFor (keepaliveSleepSecs wait)
  | .errEagain => .sleepFor (keepaliveSleepSecs 1)
  | .errOther => .exitLoop

/-- One iteration of the loop in SshManager::spawn_keepalive_for_forward;
its body is textually identical to the per-session variant. -/
def forwardKeepaliveStep : KeepaliveSendResult → KeepaliveStep
  | .ok wait => .sleepFor (keepaliveSleepSecs wait)
  | .errEagain => .sleepFor (keepaliveSleepSecs 1)
  | .errOther => .exitLoop

/-- Sleep duration the claim asserts: clamp(n, 5, 60), with a zero
advisory treated as 5 (which clamping to the range 5..60 already does). -/
def claimedClampSleep (n : Nat) : Nat :=
  max 5 (min n 60)

/-! ### Username selection (create_authenticated_session) -/

/-- Effective username computed in SshManager::create_authenticated_session:
if the descriptor username is whitespace-only, take the USER environment
variable filtered to be non-blank, else the USERNAME environment variable
filtered to be non-blank, else the literal root; otherwise use the
descriptor username with surrounding whitespace trimmed. -/
def effectiveUsername (username : String) (envUser envUsername : Option String) : String :=
  if strTrim username = "" then
    ((envUser.filter fun n => strTrim n != "").orElse
      (fun _ => envUsername.filter fun n => strTrim n != "")).getD "root"
  else
    strTrim username

/-! ### Claim C4 -/

/-- C4 counterexample: for the advisory n = 2 both driver loops sleep 2
seconds, not clamp(2, 5, 60) = 5 seconds, so the claimed lower bound of
5 seconds fails. -/
theorem keepalive_clamp_counterexample :
    sessionKeepaliveStep (.ok 2) = .sleepFor 2 ∧
    forwardKeepaliveStep (.ok 2) = .sleepFor 2 ∧
    claimedClampSleep 2 = 5 ∧ ¬ (5 ≤ 2) := by
  refine ⟨by decide, by decide, by decide, by decide⟩

/-- C4 amended: for every advised delay n both keepalive driver loops
sleep if n = 0 then 5 else min n 60 seconds; the sleep never exceeds 60
seconds, but it is at least 5 seconds only when n = 0 or n is at least 5
(advisories 1..4 are honoured as given, not clamped up to 5). -/
theorem keepalive_sleep_amended (n : Nat) :
    sessionKeepaliveStep (.ok n) = .sleepFor (if n = 0 then 5 else min n 60) ∧
    forwardKeepaliveStep (.ok n) = .sleepFor (if n = 0 then 5 else min n 60) ∧
    keepaliveSleepSecs n ≤ 60 ∧
    (5 ≤ keepaliveSleepSecs n ↔ n = 0 ∨ 5 ≤ n) := by
  refine ⟨rfl, rfl, ?_, ?_⟩ <;>
    · unfold keepaliveSleepSecs
      split <;> omega

/-- C4 witness: the amended theorem evaluated at the advisory n = 7
gives a sleep of 7 seconds, within the bounds. -/
theorem keepalive_sleep_amended_witness :
    sessionKeepaliveStep (.ok 7) = .sleepFor (if 7 = 0 then 5 else min 7 60) ∧
    keepaliveSleepSecs 7 ≤ 60 :=
  ⟨(keepalive_sleep_amended 7).1, (keepalive_sleep_amended 7).2.2.1⟩

/-! ### Claim C7 -/

/-- C7 counterexample: a non-whitespace username with trailing blank is
trimmed before authentication rather than used as given, and a
whitespace-only (hence present and non-empty) environment value is
skipped in favour of root. -/
theorem username_trim_counterexample :
    effectiveUsername "alice " none none = "alice" ∧ "alice" ≠ "alice " ∧
    effectiveUsername "" (some " ") none = "root" ∧ " " ≠ "" := by
  refine ⟨by decide, by decide, by decide, by decide⟩

/-- C7 amended: for a whitespace-only descriptor username, the engine
uses the first of the USER and USERNAME environment values that is
present and not whitespace-only, and root when neither is; a descriptor
username that is not whitespace-only is used with surrounding whitespace
trimmed. -/
theorem effective_username_amended (username : String) (envUser envUsername : Option String) :
    (strTrim username = "" →
      (∀ u, envUser = some u → strTrim u ≠ "" →
        effectiveUsername username envUser envUsername = u) ∧
      ((envUser = none ∨ ∃ u, envUser = some u ∧ strTrim u = "") →
        (∀ v, envUsername = some v → strTrim v ≠ "" →
          effectiveUsername username envUser envUsername = v) ∧
        ((envUsername = none ∨ ∃ v, envUsername = some v ∧ strTrim v = "") →
          effectiveUsername username envUser envUsername = "root"))) ∧
    (strTrim username ≠ "" →
      effectiveUsername username envUser envUsername = strTrim username) := by
  constructor
  · intro hblank
    refine ⟨?_, ?_⟩
    · intro u hu hne
      subst hu
      simp [effectiveUsername, hblank, Option.filter, hne, Option.orElse]
    · intro hskip
      refine ⟨?_, ?_⟩
      · intro v hv hne
        subst hv
        rcases hskip with h | ⟨u, hu, hu2⟩ <;> subst_vars <;>
          simp_all [effectiveUsername, Option.filter, Option.orElse]
      · intro hskip2
        rcases hskip with h | ⟨u, hu, hu2⟩ <;>
          rcases hskip2 with h2 | ⟨v, hv, hv2⟩ <;> subst_vars <;>
            simp_all [effectiveUsername, Option.filter, Option.orElse]
  · intro hne
    simp [effectiveUsername, hne]

/-- C7 witness: the amended theorem evaluated at a whitespace-only
username with USER set to alice, and at the username bob with no
environment. -/
theorem effective_username_amended_witness :
    effectiveUsername " " (some "alice") none = "alice" ∧
    effectiveUsername "bob" none none = strTrim "bob" :=
  ⟨((effective_username_amended " " (some "alice") none).1 (by decide)).1
      "alice" rfl (by decide),
   (effective_username_amended "bob" none none).2 (by decide)⟩

/-! ### Transport factory (create_authenticated_session)

The network-facing steps are modelled by an oracle telling how each
external call would turn out, and by a trace of the network actions the
function performs, in order. -/

/-- Authentication variant of a connection descriptor, as in the source
enum AuthType. -/
inductive AuthType where
  | password (password : String)
  | privateKey (keyPath : String) (keyContent : Option String) (passphrase : Option String)
deriving DecidableEq, Repr

/-- Connection descriptor, as in the source struct SshConnection. -/
structure SshConnection where
  id : String
  name : String
  host : String
  port : Nat
  username : String
  authType : AuthType
  encoding : Option String
deriving DecidableEq, Repr

/-- Network-facing action performed while building a transport. -/
inductive NetAction where
  | resolveAddr
  | tcpConnect
  | sshHandshake
  | authPassword (username : String)
  | authKeyMemory (username : String)
  | authKeyFile (username : String)
deriving DecidableEq, Repr

/-- Oracle for the outcome of each external call made while building a
transport: address resolution, TCP connect, handshake, the userauth
call, and the final authenticated() flag. -/
structure NetOracle where
  resolveOk : Bool
  connectOk : Bool
  handshakeOk : Bool
  authOk : Bool
  authenticatedFlag : Bool
deriving DecidableEq, Repr

/-- Shared tail of every authentication branch: the userauth call
itself, then the assert on authenticated(). -/
def finishAuth (acts : List NetAction) (o : NetOracle) :
    List NetAction × Except String Unit :=
  if !o.authOk then (acts, .error "authentication refused")
  else if !o.authenticatedFlag then (acts, .error "Authentication failed")
  else (acts, .ok ())

/-- Model of SshManager::create_authenticated_session: resolve the
address, connect TCP with a deadline, run the handshake, pick the
effective username, then authenticate according to the descriptor
variant.  A PrivateKey descriptor with empty content falls back to the
path, and when the path is empty too the function fails at that point
with no userauth call; note that this check only happens after the three
network steps above. -/
def createAuthenticatedSession (conn : SshConnection)
    (envUser envUsername : Option String) (o : NetOracle) :
    List NetAction × Except String Unit :=
  if !o.resolveOk then ([.resolveAddr], .error "Failed to resolve host")
  else if !o.connectOk then
    ([.resolveAddr, .tcpConnect], .error "Connection timeout or failed to connect")
  else if !o.handshakeOk then
    ([.resolveAddr, .tcpConnect, .sshHandshake], .error "SSH handshake failed")
  else
    let pre := [NetAction.resolveAddr, .tcpConnect, .sshHandshake]
    let u := effectiveUsername conn.username envUser envUsername
    match conn.authType with
    | .password _ => finishAuth (pre ++ [.authPassword u]) o
    | .privateKey keyPath keyContent _ =>
      match keyContent with
      | some content =>
        if content ≠ "" then
          finishAuth (pre ++ [.authKeyMemory u]) o
        else if keyPath = "" then
          (pre, .error "Both key_path and key_content are empty")
        else
          finishAuth (pre ++ [.authKeyFile u]) o
      | none =>
        if keyPath = "" then (pre, .error "key_path is empty")
        else finishAuth (pre ++ [.authKeyFile u]) o

/-! ### Registries and manager state

Each registry of the manager is a mutex-guarded HashMap in the source;
it is modelled as an association list with lookup, replacing insert and
erase, which gives the same map semantics. -/

/-- Lookup in a registry. -/
def regLookup {α : Type} (m : List (String × α)) (k : String) : Option α :=
  (m.find? fun p => p.1 == k).map Prod.snd

/-- Erase a key from a registry (HashMap::remove). -/
def regErase {α : Type} (m : List (String × α)) (k : String) : List (String × α) :=
  m.filter fun p => p.1 != k

/-- Insert, replacing any previous entry for the key (HashMap::insert). -/
def regInsert {α : Type} (m : List (String × α)) (k : String) (v : α) :
    List (String × α) :=
  (k, v) :: regErase m k

/-- Handle stored in the forwards registry: the stop flag and the owned
transport, as in struct ForwardHandle. -/
structure ForwardHandle where
  stopFlag : Bool
  transport : Nat
deriving DecidableEq, Repr

/-- The five registries of SshManager.  Transports and channels are
identified by numeric handles. -/
structure ManagerState where
  sessions : List (String × Nat)
  channels : List (String × Nat)
  sftpSessions : List (String × Nat)
  connections : List (String × SshConnection)
  forwards : List (String × ForwardHandle)
deriving DecidableEq, Repr

/-- Side effects an operation issues against live handles or threads. -/
inductive Effect where
  | disconnectTransport (t : Nat)
  | closeChannel (c : Nat)
  | spawnSessionKeepalive (id : String) (t : Nat)
  | spawnForwardKeepalive (t : Nat)
deriving DecidableEq, Repr

/-- Model of SshManager::connect: build an authenticated transport, then
store the descriptor in the connections registry and the transport in
the sessions registry (both inserts replace silently), and spawn the
keepalive driver.  On failure nothing is stored and no effect issued. -/
def connect (s : ManagerState) (conn : SshConnection)
    (envUser envUsername : Option String) (o : NetOracle) (newTransport : Nat) :
    Except String String × ManagerState × List Effect :=
  match (createAuthenticatedSession conn envUser envUsername o).2 with
  | .error e => (.error e, s, [])
  | .ok _ =>
    (.ok conn.id,
     { s with
        connections := regInsert s.connections conn.id conn,
        sessions := regInsert s.sessions conn.id newTransport },
     [.spawnSessionKeepalive conn.id newTransport])

/-- Model of SshManager::disconnect: remove and disconnect the cached
file-transfer transport, close the shell channel, disconnect the shell
transport, drop the connection info; every sub-error is swallowed and
the function returns Ok unconditionally. -/
def disconnect (s : ManagerState) (sessionId : String) :
    Except String Unit × ManagerState × List Effect :=
  let sftpEffs := match regLookup s.sftpSessions sessionId with
    | some t => [Effect.disconnectTransport t]
    | none => []
  let chanEffs := match regLookup s.channels sessionId with
    | some c => [Effect.closeChannel c]
    | none => []
  let sessEffs := match regLookup s.sessions sessionId with
    | some t => [Effect.disconnectTransport t]
    | none => []
  (.ok (),
   { s with
      sftpSessions := regErase s.sftpSessions sessionId,
      channels := regErase s.channels sessionId,
      sessions := regErase s.sessions sessionId,
      connections := regErase s.connections sessionId },
   sftpEffs ++ chanEffs ++ sessEffs)

/-- Model of SshManager::is_connected: membership in the sessions
registry. -/
def isConnected (s : ManagerState) (sessionId : String) : Bool :=
  (regLookup s.sessions sessionId).isSome

/-! ### Tunnel engine entry point (start_forward) -/

/-- Kind of a tunnel, as in the source enum ForwardKind. -/
inductive ForwardKind where
  | localForward
  | remoteForward
  | dynamicForward
deriving DecidableEq, Repr

/-- Tunnel configuration, as in the source struct ForwardConfig. -/
structure ForwardConfig where
  id : String
  kind : ForwardKind
  connection : SshConnection
  localBindHost : Option String
  localBindPort : Option Nat
  remoteBindHost : Option String
  remoteBindPort : Option Nat
  targetHost : Option String
  targetPort : Option Nat
deriving DecidableEq, Repr

/-- Kind-specific argument validation and listener setup of
start_forward; bindOk models whether binding the local listener (or
asking the server to listen, for remote forwards) succeeded. -/
def forwardSetup (cfg : ForwardConfig) (bindOk : Bool) : Except String Unit :=
  match cfg.kind with
  | .localForward =>
    match cfg.localBindPort with
    | none => .error "Local bind port missing"
    | some _ =>
      match cfg.targetHost with
      | none => .error "Target host missing"
      | some _ =>
        match cfg.targetPort with
        | none => .error "Target port missing"
        | some _ => if bindOk then .ok () else .error "bind failed"
  | .remoteForward =>
    match cfg.remoteBindPort with
    | none => .error "Remote bind port missing"
    | some _ =>
      match cfg.targetHost with
      | none => .error "Target host missing"
      | some _ =>
        match cfg.targetPort with
        | none => .error "Target port missing"
        | some _ => if bindOk then .ok () else .error "listen failed"
  | .dynamicForward =>
    match cfg.localBindPort with
    | none => .error "Local bind port missing"
    | some _ => if bindOk then .ok () else .error "bind failed"

/-- Model of SshManager::start_forward: refuse a duplicate id before
doing anything else; otherwise build a fresh authenticated transport,
spawn its keepalive driver, run kind-specific setup, and store the
handle (stop flag initially false) in the forwards registry. -/
def startForward (s : ManagerState) (cfg : ForwardConfig)
    (envUser envUsername : Option String) (o : NetOracle)
    (newTransport : Nat) (bindOk : Bool) :
    Except String Unit × ManagerState × List Effect :=
  if (regLookup s.forwards cfg.id).isSome then
    (.error "Forward already running", s, [])
  else
    match (createAuthenticatedSession cfg.connection envUser envUsername o).2 with
    | .error e => (.error e, s, [])
    | .ok _ =>
      let effs := [Effect.spawnForwardKeepalive newTransport]
      match forwardSetup cfg bindOk with
      | .error e => (.error e, s, effs)
      | .ok _ =>
        (.ok (),
         { s with forwards := regInsert s.forwards cfg.id ⟨false, newTransport⟩ },
         effs)

/-! ### Command execution (execute_command) -/

deriving instance DecidableEq for Except

/-- Oracle for the fallible calls of one attempt of execute_command:
get_or_create_sftp, channel_session, exec, read_to_string (whose
success carries the collected output) and wait_close. -/
structure ExecAttemptOracle where
  getSftp : Except String Unit
  openChannelSession : Except String Unit
  execCall : Except String Unit
  readToEnd : Except String String
  waitClose : Except String Unit
deriving DecidableEq, Repr

/-- Outcome of one iteration of the attempt loop of execute_command,
running its fallible calls in source order and stopping at the first
error. -/
def execAttemptResult (a : ExecAttemptOracle) : Except String String :=
  match a.getSftp with
  | .error e => .error e
  | .ok _ =>
    match a.openChannelSession with
    | .error e => .error e
    | .ok _ =>
      match a.execCall with
      | .error e => .error e
      | .ok _ =>
        match a.readToEnd with
        | .error e => .error e
        | .ok out =>
          match a.waitClose with
          | .error e => .error e
          | .ok _ => .ok out

/-- Model of SshManager::execute_command as written.  In the source the
loop body builds result inside a plain block whose fallible calls all
use the question-mark operator; in Rust that operator returns from the
enclosing function, not from the block, so every error of the first
attempt (get_or_create_sftp, channel_session, exec, read_to_string,
wait_close) unwinds out of execute_command immediately.  The match on
result therefore only ever sees Ok, its retry arm that drops the cached
transport is unreachable, and the function always returns the outcome
of the first attempt; the second attempt never runs. -/
def executeCommand (firstAttempt secondAttempt : ExecAttemptOracle) :
    Except String String :=
  let _ := secondAttempt
  execAttemptResult firstAttempt

/-- Modelled from the spec: the behavior the claim describes for
execute, namely retry exactly once on any failure of the first attempt,
with the cached file-transfer transport dropped so that the second
attempt runs on a fresh transport, surfacing only the second failure. -/
def executeCommandClaimed (firstAttempt secondAttempt : ExecAttemptOracle) :
    Except String String :=
  match execAttemptResult firstAttempt with
  | .ok out => .ok out
  | .error _ => execAttemptResult secondAttempt

/-! ### Claim C1 -/

/-- C1: evaluated at a failing input where the first attempt fails to
open its exec channel (a stale cached transport) and a retry on a fresh
transport would have succeeded, execute_command surfaces the first
failure to the caller instead of retrying, against both the claim and
the retry intent documented in the source comments. -/
theorem execute_command_surfaces_first_failure :
    executeCommand
      ⟨.ok (), .error "channel open failed", .ok (), .ok "", .ok ()⟩
      ⟨.ok (), .ok (), .ok (), .ok "hi", .ok ()⟩
      = .error "channel open failed" ∧
    executeCommandClaimed
      ⟨.ok (), .error "channel open failed", .ok (), .ok "", .ok ()⟩
      ⟨.ok (), .ok (), .ok (), .ok "hi", .ok ()⟩
      = .ok "hi" :=
  ⟨rfl, rfl⟩

/-! ### Registry lemmas -/

theorem regLookup_regInsert_self {α : Type} (m : List (String × α)) (k : String) (v : α) :
    regLookup (regInsert m k v) k = some v := by
  simp [regLookup, regInsert, List.find?]

theorem regLookup_regErase_self {α : Type} (m : List (String × α)) (k : String) :
    regLookup (regErase m k) k = none := by
  have h : List.find? (fun p => p.1 == k) (List.filter (fun p => p.1 != k) m) = none := by
    rw [List.find?_eq_none]
    intro p hp
    have h2 := (List.mem_filter.mp hp).2
    simpa using h2
  simp [regLookup, regErase, h]

/-! ### Claim C10 -/

/-- C10: for every state and session id, including ids absent from every
registry, disconnect returns success, and afterwards the id is gone from
the session, channel, file-transfer and connection registries, so
isConnected reports false. -/
theorem disconnect_total_and_clears (s : ManagerState) (sessionId : String) :
    (disconnect s sessionId).1 = .ok () ∧
    regLookup (disconnect s sessionId).2.1.sessions sessionId = none ∧
    regLookup (disconnect s sessionId).2.1.channels sessionId = none ∧
    regLookup (disconnect s sessionId).2.1.sftpSessions sessionId = none ∧
    regLookup (disconnect s sessionId).2.1.connections sessionId = none ∧
    isConnected (disconnect s sessionId).2.1 sessionId = false := by
  refine ⟨rfl, ?_, ?_, ?_, ?_, ?_⟩ <;>
    simp [disconnect, isConnected, regLookup_regErase_self]

/-! ### Claim C9 -/

/-- C9: when connect is called for an id already present in the session
registry and authentication succeeds, the fresh transport silently
replaces the sessions entry and the stored descriptor replaces the
connections entry; the channel and file-transfer registries are left
untouched and the only effect issued is spawning the new keepalive
driver — no disconnect of the old shell transport, no channel close,
no removal of the cached file-transfer transport. -/
theorem connect_replaces_silently
    (s : ManagerState) (conn : SshConnection) (envUser envUsername : Option String)
    (o : NetOracle) (newTransport oldTransport : Nat)
    (_hold : regLookup s.sessions conn.id = some oldTransport)
    (hauth : (createAuthenticatedSession conn envUser envUsername o).2 = .ok ()) :
    connect s conn envUser envUsername o newTransport =
      (.ok conn.id,
       { s with
          connections := regInsert s.connections conn.id conn,
          sessions := regInsert s.sessions conn.id newTransport },
       [.spawnSessionKeepalive conn.id newTransport]) ∧
    (connect s conn envUser envUsername o newTransport).2.1.channels = s.channels ∧
    (connect s conn envUser envUsername o newTransport).2.1.sftpSessions = s.sftpSessions ∧
    (connect s conn envUser envUsername o newTransport).2.1.forwards = s.forwards ∧
    regLookup (connect s conn envUser envUsername o newTransport).2.1.sessions conn.id
      = some newTransport ∧
    regLookup (connect s conn envUser envUsername o newTransport).2.1.connections conn.id
      = some conn ∧
    ∀ e ∈ (connect s conn envUser envUsername o newTransport).2.2,
      (∀ t, e ≠ .disconnectTransport t) ∧ (∀ c, e ≠ .closeChannel c) := by
  have hc : connect s conn envUser envUsername o newTransport =
      (.ok conn.id,
       { s with
          connections := regInsert s.connections conn.id conn,
          sessions := regInsert s.sessions conn.id newTransport },
       [.spawnSessionKeepalive conn.id newTransport]) := by
    unfold connect
    rw [hauth]
  refine ⟨hc, ?_, ?_, ?_, ?_, ?_, ?_⟩
  · rw [hc]
  · rw [hc]
  · rw [hc]
  · rw [hc]; exact regLookup_regInsert_self ..
  · rw [hc]; exact regLookup_regInsert_self ..
  · rw [hc]
    intro e he
    simp only [List.mem_singleton] at he
    subst he
    exact ⟨fun t => by simp, fun c => by simp⟩

/-! ### Concrete fixtures for witnesses -/

/-- Concrete password descriptor used by witnesses. -/
def connFixture : SshConnection :=
  ⟨"s1", "server one", "h", 22, "root", .password "p", none⟩

/-- Oracle where every external call succeeds. -/
def oracleAllOk : NetOracle := ⟨true, true, true, true, true⟩

/-- A manager state with one live session s1 holding transport 7,
channel 3, file-transfer transport 4. -/
def stateFixture : ManagerState :=
  ⟨[("s1", 7)], [("s1", 3)], [("s1", 4)], [("s1", connFixture)], []⟩

/-- C9 witness: reconnecting s1 replaces its transport with 9, keeps the
channel and file-transfer registries, and spawns only a keepalive. -/
theorem connect_replaces_silently_witness :
    (connect stateFixture connFixture none none oracleAllOk 9).2.1.channels
      = [("s1", 3)] ∧
    (connect stateFixture connFixture none none oracleAllOk 9).2.1.sftpSessions
      = [("s1", 4)] ∧
    regLookup (connect stateFixture connFixture none none oracleAllOk 9).2.1.sessions "s1"
      = some 9 := by
  have h := connect_replaces_silently stateFixture connFixture none none oracleAllOk 9 7
    rfl rfl
  exact ⟨h.2.1, h.2.2.1, h.2.2.2.2.1⟩

/-! ### Claim C5 -/

/-- C5 counterexample: for a PrivateKey descriptor whose key content and
key path are both empty, connect with every network step succeeding
still resolves the address, opens the TCP connection and runs the
handshake before reporting the failure, so the claimed absence of
network activity is false. -/
theorem empty_key_touches_network :
    createAuthenticatedSession
      ⟨"s1", "srv", "h", 22, "root", .privateKey "" (some "") none, none⟩
      none none oracleAllOk
      = ([.resolveAddr, .tcpConnect, .sshHandshake],
         .error "Both key_path and key_content are empty") ∧
    NetAction.tcpConnect ∈
      (createAuthenticatedSession
        ⟨"s1", "srv", "h", 22, "root", .privateKey "" (some "") none, none⟩
        none none oracleAllOk).1 := by
  exact ⟨rfl, by decide⟩

/-- C5 amended: for a PrivateKey descriptor with empty content and empty
path, connect always fails and never issues a userauth call, but the
failure is reported only at the authentication step: when resolution,
TCP connect and handshake all succeed the action trace is exactly those
three network steps, and the registries are left untouched. -/
theorem empty_key_auth_failure_amended
    (conn : SshConnection) (envUser envUsername : Option String) (o : NetOracle)
    (passphrase keyContent : Option String)
    (hAuth : conn.authType = .privateKey "" keyContent passphrase)
    (hContent : keyContent = none ∨ keyContent = some "") :
    (∃ e, (createAuthenticatedSession conn envUser envUsername o).2 = .error e) ∧
    (∀ a ∈ (createAuthenticatedSession conn envUser envUsername o).1,
      a = .resolveAddr ∨ a = .tcpConnect ∨ a = .sshHandshake) ∧
    (o.resolveOk = true → o.connectOk = true → o.handshakeOk = true →
      (createAuthenticatedSession conn envUser envUsername o).1
        = [.resolveAddr, .tcpConnect, .sshHandshake]) ∧
    (∀ s newTransport, ∃ e,
      connect s conn envUser envUsername o newTransport = (.error e, s, [])) := by
  obtain ⟨r, c, hs, a, f⟩ := o
  rcases hContent with h | h <;> subst h <;>
    cases r <;> cases c <;> cases hs <;>
      simp [createAuthenticatedSession, connect, hAuth]

/-- C5 witness: the amended theorem evaluated at a concrete descriptor
with both key fields empty and an all-success oracle. -/
theorem empty_key_auth_failure_amended_witness :
    (createAuthenticatedSession
      ⟨"s2", "srv", "h", 22, "root", .privateKey "" none none, none⟩
      none none oracleAllOk).1
      = [.resolveAddr, .tcpConnect, .sshHandshake] ∧
    (∃ e, (createAuthenticatedSession
      ⟨"s2", "srv", "h", 22, "root", .privateKey "" none none, none⟩
      none none oracleAllOk).2 = .error e) := by
  have h := empty_key_auth_failure_amended
    ⟨"s2", "srv", "h", 22, "root", .privateKey "" none none, none⟩
    none none oracleAllOk none none rfl (Or.inl rfl)
  exact ⟨h.2.2.1 rfl rfl rfl, h.1⟩

/-! ### Claim C6 -/

/-- Helper: a successful start_forward stores the handle with a fresh
stop flag and the new transport under the configured id. -/
theorem startForward_success_state (s : ManagerState) (cfg : ForwardConfig)
    (envUser envUsername : Option String) (o : NetOracle) (t : Nat) (bindOk : Bool)
    (h : (startForward s cfg envUser envUsername o t bindOk).1 = .ok ()) :
    (startForward s cfg envUser envUsername o t bindOk).2.1 =
      { s with forwards := regInsert s.forwards cfg.id ⟨false, t⟩ } := by
  cases hdup : (regLookup s.forwards cfg.id).isSome with
  | true => rw [startForward, hdup] at h; simp at h
  | false =>
    cases hA : (createAuthenticatedSession cfg.connection envUser envUsername o).2 with
    | error e => rw [startForward, hdup, hA] at h; simp at h
    | ok u =>
      cases hS : forwardSetup cfg bindOk with
      | error e => rw [startForward, hdup, hA] at h; simp [hS] at h
      | ok u2 => rw [startForward, hdup, hA]; simp [hS]

/-- C6: if a first forward.start call for an id succeeds, a second call
with the same id (whatever its oracle) returns the AlreadyRunning error
and leaves everything unchanged: same state, no effects, and the stored
handle keeps its cleared stop flag and its transport. -/
theorem start_forward_duplicate_id
    (s : ManagerState) (cfg : ForwardConfig)
    (envUser envUsername envUser2 envUsername2 : Option String)
    (o o2 : NetOracle) (t t2 : Nat) (bindOk bindOk2 : Bool)
    (hfirst : (startForward s cfg envUser envUsername o t bindOk).1 = .ok ()) :
    startForward (startForward s cfg envUser envUsername o t bindOk).2.1 cfg
        envUser2 envUsername2 o2 t2 bindOk2 =
      (.error "Forward already running",
       (startForward s cfg envUser envUsername o t bindOk).2.1, []) ∧
    regLookup (startForward s cfg envUser envUsername o t bindOk).2.1.forwards cfg.id
      = some ⟨false, t⟩ := by
  have hs1 := startForward_success_state s cfg envUser envUsername o t bindOk hfirst
  rw [hs1]
  have hlook : regLookup (regInsert s.forwards cfg.id ⟨false, t⟩) cfg.id
      = some ⟨false, t⟩ := regLookup_regInsert_self ..
  constructor
  · rw [startForward]
    simp [hlook]
  · simpa using hlook

/-- Concrete local-forward configuration used by the C6 witness. -/
def cfgFixture : ForwardConfig :=
  ⟨"f1", .localForward, connFixture, none, some 8080, none, none, some "db", some 5432⟩

/-- C6 witness: starting f1 on an empty registry succeeds, and a second
start with the same id returns the AlreadyRunning error while the
stored handle keeps stop flag false and transport 5. -/
theorem start_forward_duplicate_id_witness :
    startForward (startForward ⟨[], [], [], [], []⟩ cfgFixture none none oracleAllOk 5 true).2.1
        cfgFixture none none oracleAllOk 6 true
      = (.error "Forward already running",
         (startForward ⟨[], [], [], [], []⟩ cfgFixture none none oracleAllOk 5 true).2.1,
         []) ∧
    regLookup (startForward ⟨[], [], [], [], []⟩ cfgFixture none none
        oracleAllOk 5 true).2.1.forwards "f1"
      = some ⟨false, 5⟩ :=
  start_forward_duplicate_id ⟨[], [], [], [], []⟩ cfgFixture
    none none none none oracleAllOk oracleAllOk 5 6 true true rfl

/-! ### Interactive shell reader (open_shell)

The reader thread is modelled as a function of the sequence of outcomes
its successive channel reads (and lock acquisitions) produce, returning
the sequence of events it emits over the sink.  An empty byte list
models a zero-length read (eof). -/

/-- Kind of a read error, as distinguished by the reader loop.  The
source only singles out WouldBlock; every other kind, Interrupted
included, falls into the generic error arm. -/
inductive ReadErrKind where
  | wouldBlock
  | interrupted
  | otherErr
deriving DecidableEq, Repr

/-- Outcome of one loop iteration of the reader thread: a successful
read of some bytes (possibly none), a read error with its kind and
display text, or a poisoned channel lock. -/
inductive ReadOutcome where
  | okRead (bytes : List Nat)
  | errRead (kind : ReadErrKind) (msg : String)
  | lockPoisoned
deriving DecidableEq, Repr

/-- Event pushed over the sink by the reader. -/
inductive TermEvent where
  | output (sessionId : String) (data : String)
  | disconnected (sessionId : String) (reason : String)
deriving DecidableEq, Repr

/-- True exactly for disconnection events. -/
def TermEvent.isDisc : TermEvent → Bool
  | .output _ _ => false
  | .disconnected _ _ => true

/-- Model of the reader loop spawned by SshManager::open_shell, mapping
the sequence of read outcomes to the emitted events: a positive read
emits a decoded output event and continues; a zero-length read breaks
with reason eof; a WouldBlock error continues after the idle sleep; any
other read error, Interrupted included, breaks with reason error plus
the display text; a poisoned lock breaks with no reason.  After the
loop, the reason, if any, is pushed as a single disconnection event.
The lossy UTF-8 decoding of the output bytes is abstracted by the
decode parameter. -/
def shellReaderRun (sessionId : String) (decode : List Nat → String) :
    List ReadOutcome → List TermEvent
  | [] => []
  | .okRead bytes :: rest =>
    if bytes.length > 0 then
      .output sessionId (decode bytes) :: shellReaderRun sessionId decode rest
    else
      [.disconnected sessionId "eof"]
  | .errRead kind msg :: rest =>
    if kind = .wouldBlock then shellReaderRun sessionId decode rest
    else [.disconnected sessionId ("error: " ++ msg)]
  | .lockPoisoned :: _ => []

/-- Disconnect reason a given outcome is allowed to produce according
to the claim: eof for a zero-length read, the error text for a read
error that is neither WouldBlock nor Interrupted, nothing otherwise. -/
def claimAllowedReason : ReadOutcome → Option String
  | .okRead bytes => if bytes.length = 0 then some "eof" else none
  | .errRead kind msg =>
    if kind = .wouldBlock ∨ kind = .interrupted then none
    else some ("error: " ++ msg)
  | .lockPoisoned => none

/-- Helper: an element of the dropLast of a cons is the head or an
element of the dropLast of the tail. -/
theorem mem_dropLast_cons {α : Type} {a x : α} {l : List α}
    (h : x ∈ (a :: l).dropLast) : x = a ∨ x ∈ l.dropLast := by
  cases l with
  | nil => simp at h
  | cons b t =>
    rw [List.dropLast_cons₂] at h
    exact List.mem_cons.mp h

/-! ### Claim C8 -/

/-- C8 counterexample: a run whose only read outcome is an Interrupted
error emits a disconnection event with an error reason, although the
claim allows error reasons only after read errors other than WouldBlock
or Interrupted (the source has no Interrupted arm, so Interrupted does
not continue the loop as claimed). -/
theorem reader_interrupted_counterexample :
    shellReaderRun "s1" (fun _ => "") [.errRead .interrupted "oops"]
      = [.disconnected "s1" "error: oops"] ∧
    ¬ some "error: oops" ∈
      ([ReadOutcome.errRead .interrupted "oops"].map claimAllowedReason) := by
  exact ⟨rfl, by decide⟩

/-- C8 amended: over its whole life the reader emits at most one
disconnection event; any disconnection event is the last event emitted,
after the read loop has broken; and its reason is eof after a
zero-length read, or error plus the display text after a read error
other than WouldBlock — including Interrupted errors, which the source
does not treat as transient. -/
theorem shell_reader_amended (sessionId : String) (decode : List Nat → String)
    (outcomes : List ReadOutcome) :
    ((shellReaderRun sessionId decode outcomes).filter TermEvent.isDisc).length ≤ 1 ∧
    (∀ e ∈ (shellReaderRun sessionId decode outcomes).dropLast,
      e.isDisc = false) ∧
    (∀ sid r, TermEvent.disconnected sid r ∈ shellReaderRun sessionId decode outcomes →
      sid = sessionId ∧
      ((r = "eof" ∧ ReadOutcome.okRead [] ∈ outcomes) ∨
       (∃ kind msg, r = "error: " ++ msg ∧
          ReadOutcome.errRead kind msg ∈ outcomes ∧ kind ≠ .wouldBlock))) := by
  induction outcomes with
  | nil => exact ⟨by simp [shellReaderRun], by simp [shellReaderRun], by simp [shellReaderRun]⟩
  | cons oc rest ih =>
    cases oc with
    | okRead bytes =>
      cases hb : bytes with
      | nil =>
        refine ⟨by simp [shellReaderRun, TermEvent.isDisc], by simp [shellReaderRun], ?_⟩
        intro sid r hmem
        simp only [shellReaderRun, List.length_nil, gt_iff_lt, Nat.lt_irrefl, if_false,
          List.mem_singleton] at hmem
        cases hmem
        exact ⟨rfl, Or.inl ⟨rfl, by simp⟩⟩
      | cons b bs =>
        subst hb
        have hrun : shellReaderRun sessionId decode (ReadOutcome.okRead (b :: bs) :: rest)
            = .output sessionId (decode (b :: bs)) :: shellReaderRun sessionId decode rest := by
          simp [shellReaderRun]
        refine ⟨?_, ?_, ?_⟩
        · rw [hrun]
          simpa [TermEvent.isDisc] using ih.1
        · rw [hrun]
          intro e he
          rcases mem_dropLast_cons he with h | h
          · subst h; rfl
          · exact ih.2.1 e h
        · intro sid r hmem
          rw [hrun] at hmem
          rcases List.mem_cons.mp hmem with h | h
          · exact absurd h (by simp)
          · obtain ⟨hsid, hrest⟩ := ih.2.2 sid r h
            refine ⟨hsid, ?_⟩
            rcases hrest with ⟨h1, h2⟩ | ⟨kind, msg, h1, h2, h3⟩
            · exact Or.inl ⟨h1, List.mem_cons_of_mem _ h2⟩
            · exact Or.inr ⟨kind, msg, h1, List.mem_cons_of_mem _ h2, h3⟩
    | errRead kind msg =>
      by_cases hk : kind = .wouldBlock
      · subst hk
        refine ⟨?_, ?_, ?_⟩
        · simpa [shellReaderRun] using ih.1
        · intro e he
          exact ih.2.1 e (by simpa [shellReaderRun] using he)
        · intro sid r hmem
          obtain ⟨hsid, hrest⟩ := ih.2.2 sid r (by simpa [shellReaderRun] using hmem)
          refine ⟨hsid, ?_⟩
          rcases hrest with ⟨h1, h2⟩ | ⟨kind, msg2, h1, h2, h3⟩
          · exact Or.inl ⟨h1, List.mem_cons_of_mem _ h2⟩
          · exact Or.inr ⟨kind, msg2, h1, List.mem_cons_of_mem _ h2, h3⟩
      · refine ⟨by simp [shellReaderRun, hk, TermEvent.isDisc], by simp [shellReaderRun, hk], ?_⟩
        intro sid r hmem
        simp only [shellReaderRun, if_neg hk, List.mem_singleton] at hmem
        cases hmem
        exact ⟨rfl, Or.inr ⟨kind, msg, rfl, by simp, hk⟩⟩
    | lockPoisoned =>
      exact ⟨by simp [shellReaderRun], by simp [shellReaderRun], by simp [shellReaderRun]⟩

/-- C8 witness: the amended theorem evaluated at a run with one output
read followed by eof. -/
theorem shell_reader_amended_witness :
    ((shellReaderRun "s1" (fun _ => "x") [.okRead [104], .okRead []]).filter
        TermEvent.isDisc).length ≤ 1 ∧
    (∀ e ∈ (shellReaderRun "s1" (fun _ => "x") [.okRead [104], .okRead []]).dropLast,
      e.isDisc = false) :=
  ⟨(shell_reader_amended "s1" (fun _ => "x") [.okRead [104], .okRead []]).1,
   (shell_reader_amended "s1" (fun _ => "x") [.okRead [104], .okRead []]).2.1⟩

/-! ### SOCKS5 handshake (socks5_handshake / start_dynamic_forward)

The inbound TCP stream is modelled as the list of bytes the client will
send; read_exact of n bytes succeeds exactly when n bytes remain.  The
result records the bytes written back to the client and, on success,
the parsed target; a none target means the worker drops the stream. -/

/-- Model of read_exact: take n bytes from the stream if available. -/
def take? (n : Nat) (l : List Nat) : Option (List Nat × List Nat) :=
  if n ≤ l.length then some (l.take n, l.drop n) else none

/-- Lower-case hexadecimal digit character. -/
def hexDigit (n : Nat) : Char :=
  if n < 10 then Char.ofNat (48 + n) else Char.ofNat (87 + n)

/-- Two lower-case hex digits of a byte, as Rust formats with 02x. -/
def hexByte (b : Nat) : String :=
  String.mk [hexDigit (b / 16 % 16), hexDigit (b % 16)]

/-- Decimal rendering of a byte, as Rust Display for u8. -/
def decByte (b : Nat) : String :=
  if b < 10 then String.mk [hexDigit b]
  else if b < 100 then String.mk [hexDigit (b / 10), hexDigit (b % 10)]
  else String.mk [hexDigit (b / 100), hexDigit (b / 10 % 10), hexDigit (b % 10)]

/-- Groups of two bytes rendered as four hex digits, as the source maps
chunks of two over the 16 address bytes. -/
def ipv6Segments : List Nat → List String
  | a :: b :: rest => (hexByte a ++ hexByte b) :: ipv6Segments rest
  | [a] => [hexByte a]
  | [] => []

/-- Join with colons, as Vec::join does for the address segments. -/
def joinColon : List String → String
  | [] => ""
  | [s] => s
  | s :: rest => s ++ ":" ++ joinColon rest

/-- Address reading step of socks5_handshake for a given address type:
type 1 reads four bytes into a dotted quad, type 3 reads a length byte
and that many name bytes (their lossy UTF-8 decoding abstracted by the
decodeName parameter), type 4 reads sixteen bytes into colon-joined hex
pairs; anything else is an unsupported-address-type error, and running
out of input is a read error; both make the worker drop the stream with
nothing further written. -/
def socks5ReadAddr (decodeName : List Nat → String) (atyp : Nat) (input : List Nat) :
    Option (String × List Nat) :=
  if atyp = 1 then
    match input with
    | a :: b :: c :: d :: rest =>
      some (decByte a ++ "." ++ decByte b ++ "." ++ decByte c ++ "." ++ decByte d, rest)
    | _ => none
  else if atyp = 3 then
    match input with
    | len :: rest =>
      match take? len rest with
      | some (buf, rest2) => some (decodeName buf, rest2)
      | none => none
    | _ => none
  else if atyp = 4 then
    match take? 16 input with
    | some (buf, rest) => some (joinColon (ipv6Segments buf), rest)
    | none => none
  else none

/-- Bytes written and target parsed by one run of the handshake. -/
structure Socks5Result where
  written : List Nat
  target : Option (String × Nat)
deriving DecidableEq, Repr

/-- Model of SshManager::socks5_handshake: read the two-byte preamble
(version must be 5, else drop with no reply), read the method list
(must contain 0, else reply 5 255 and drop), reply 5 0, read the
four-byte request (version 5 and command 1 required, else reply
5 7 0 1 0 0 0 0 0 0 and drop), read the address per its type, then the
big-endian port. -/
def socks5Handshake (decodeName : List Nat → String) (input : List Nat) : Socks5Result :=
  match input with
  | ver :: nmethods :: rest =>
    if ver ≠ 5 then ⟨[], none⟩
    else
      match take? nmethods rest with
      | none => ⟨[], none⟩
      | some (methods, rest1) =>
        if ! methods.contains 0 then ⟨[5, 255], none⟩
        else
          match rest1 with
          | rv :: rc :: _rsv :: atyp :: rest2 =>
            if rv ≠ 5 ∨ rc ≠ 1 then ⟨[5, 0, 5, 7, 0, 1, 0, 0, 0, 0, 0, 0], none⟩
            else
              match socks5ReadAddr decodeName atyp rest2 with
              | none => ⟨[5, 0], none⟩
              | some (host, rest3) =>
                match rest3 with
                | p1 :: p2 :: _ => ⟨[5, 0], some (host, p1 * 256 + p2)⟩
                | _ => ⟨[5, 0], none⟩
          | _ => ⟨[5, 0], none⟩
  | _ => ⟨[], none⟩

/-- Bytes a dynamic-forward worker writes back over the whole exchange:
the handshake replies, then — only when a target was parsed — the
success reply 5 0 0 1 0 0 0 0 0 0 before piping, or the failure reply
5 1 0 1 0 0 0 0 0 0 before dropping, depending on whether the
direct-tcpip channel could be opened (openOk). -/
def dynamicWorkerWritten (decodeName : List Nat → String) (input : List Nat)
    (openOk : Bool) : List Nat :=
  let r := socks5Handshake decodeName input
  match r.target with
  | none => r.written
  | some _ =>
    if openOk then r.written ++ [5, 0, 0, 1, 0, 0, 0, 0, 0, 0]
    else r.written ++ [5, 1, 0, 1, 0, 0, 0, 0, 0, 0]

/-! ### Claim C2 -/

/-- C2 counterexample: a preamble with version 6 is dropped with no
reply at all, where the claim requires the reply 5 255; and the
channel-open failure reply is 5 1 0 1 followed by six zeros, not 5 1
followed by zeros as claimed (its fourth byte is the address-type 1). -/
theorem socks5_claim_counterexample :
    socks5Handshake (fun _ => "") [6, 1, 0] = ⟨[], none⟩ ∧
    ([] : List Nat) ≠ [5, 255] ∧
    dynamicWorkerWritten (fun _ => "") [5, 1, 0, 5, 1, 0, 1, 1, 2, 3, 4, 0, 80] false
      = [5, 0, 5, 1, 0, 1, 0, 0, 0, 0, 0, 0] ∧
    [5, 0, 5, 1, 0, 1, 0, 0, 0, 0, 0, 0] ≠ [5, 0] ++ [5, 1] ++ List.replicate 8 0 := by
  refine ⟨rfl, by decide, by decide, by decide⟩

/-- C2 amended: the handshake is bit-exact as follows.  A preamble whose
version byte is not 5 drops the stream with no reply; a complete method
list without 0 gets the reply 5 255 and drop; with 0 present the reply
5 0 is written, then a request whose version is not 5 or whose command
is not 1 gets the additional reply 5 7 0 1 0 0 0 0 0 0 and drop; an
accepted request parses its address (type 1: four bytes as a dotted
quad; type 3: a length byte then that many name bytes; type 4: sixteen
bytes as colon-joined hex pairs) and a two-byte big-endian port; on
channel-open success the worker appends 5 0 0 1 0 0 0 0 0 0 and pipes,
on failure it appends 5 1 0 1 0 0 0 0 0 0 and drops; when no target was
parsed nothing further is written. -/
theorem socks5_handshake_amended (decodeName : List Nat → String) :
    (∀ ver rest, ver ≠ 5 →
      socks5Handshake decodeName (ver :: rest) = ⟨[], none⟩) ∧
    (∀ nm rest methods rest1, take? nm rest = some (methods, rest1) →
      methods.contains 0 = false →
      socks5Handshake decodeName (5 :: nm :: rest) = ⟨[5, 255], none⟩) ∧
    (∀ nm rest methods rv rc rsv atyp rest2,
      take? nm rest = some (methods, rv :: rc :: rsv :: atyp :: rest2) →
      methods.contains 0 = true → (rv ≠ 5 ∨ rc ≠ 1) →
      socks5Handshake decodeName (5 :: nm :: rest)
        = ⟨[5, 0, 5, 7, 0, 1, 0, 0, 0, 0, 0, 0], none⟩) ∧
    (∀ nm rest methods rsv atyp rest2 host rest3 p1 p2 tail,
      take? nm rest = some (methods, 5 :: 1 :: rsv :: atyp :: rest2) →
      methods.contains 0 = true →
      socks5ReadAddr decodeName atyp rest2 = some (host, rest3) →
      rest3 = p1 :: p2 :: tail →
      socks5Handshake decodeName (5 :: nm :: rest)
        = ⟨[5, 0], some (host, p1 * 256 + p2)⟩) ∧
    (∀ a b c d rest, socks5ReadAddr decodeName 1 (a :: b :: c :: d :: rest)
      = some (decByte a ++ "." ++ decByte b ++ "." ++ decByte c ++ "." ++ decByte d, rest)) ∧
    (∀ len rest buf rest2, take? len rest = some (buf, rest2) →
      socks5ReadAddr decodeName 3 (len :: rest) = some (decodeName buf, rest2)) ∧
    (∀ input buf rest2, take? 16 input = some (buf, rest2) →
      socks5ReadAddr decodeName 4 input
        = some (joinColon (ipv6Segments buf), rest2)) ∧
    (∀ input target, (socks5Handshake decodeName input).target = some target →
      dynamicWorkerWritten decodeName input true
        = (socks5Handshake decodeName input).written ++ [5, 0, 0, 1, 0, 0, 0, 0, 0, 0] ∧
      dynamicWorkerWritten decodeName input false
        = (socks5Handshake decodeName input).written ++ [5, 1, 0, 1, 0, 0, 0, 0, 0, 0]) ∧
    (∀ input, (socks5Handshake decodeName input).target = none →
      dynamicWorkerWritten decodeName input true = (socks5Handshake decodeName input).written ∧
      dynamicWorkerWritten decodeName input false
        = (socks5Handshake decodeName input).written) := by
  refine ⟨?_, ?_, ?_, ?_, ?_, ?_, ?_, ?_, ?_⟩
  · intro ver rest h
    cases rest with
    | nil => simp [socks5Handshake]
    | cons nm rest2 => simp [socks5Handshake, h]
  · intro nm rest methods rest1 htake hmeth
    simp [socks5Handshake, htake, hmeth]
    intro hx
    exact absurd hx (by simpa using hmeth)
  · intro nm rest methods rv rc rsv atyp rest2 htake hmeth hbad
    simp [socks5Handshake, htake, hmeth, hbad]
    simpa using hmeth
  · intro nm rest methods rsv atyp rest2 host rest3 p1 p2 tail htake hmeth haddr hport
    subst hport
    simp [socks5Handshake, htake, hmeth, haddr]
    simpa using hmeth
  · intro a b c d rest
    simp [socks5ReadAddr]
  · intro len rest buf rest2 htake
    simp [socks5ReadAddr, htake]
  · intro input buf rest2 htake
    simp [socks5ReadAddr, htake]
  · intro input target htarget
    constructor <;> simp [dynamicWorkerWritten, htarget]
  · intro input htarget
    constructor <;> simp [dynamicWorkerWritten, htarget]

/-- C2 witness: the amended theorem evaluated at a complete CONNECT
exchange for the IPv4 address 1.2.3.4 port 80 with the no-auth method. -/
theorem socks5_handshake_amended_witness :
    socks5Handshake (fun _ => "") [5, 1, 0, 5, 1, 0, 1, 1, 2, 3, 4, 0, 80]
      = ⟨[5, 0], some ("1.2.3.4", 80)⟩ := by
  have h := socks5_handshake_amended (fun _ => "")
  exact h.2.2.2.1 1 [0, 5, 1, 0, 1, 1, 2, 3, 4, 0, 80] [0] 0 1 [1, 2, 3, 4, 0, 80]
    "1.2.3.4" [0, 80] 0 80 [] (by decide) (by decide) (by decide) rfl

/-! ### Directory listing (sftp_list_dir)

The SFTP readdir result is an oracle input: a list of raw entries, each
carrying the optional basename its path yields (None models a path with
no file name) and the stat the server returned. -/

/-- Stat fields of a raw entry that survive into the listing. -/
structure StatInfo where
  isDir : Bool
  size : Option Nat
  mtime : Option Nat
  perm : Option Nat
deriving DecidableEq, Repr

/-- Raw entry as returned by readdir: the basename extracted from its
path (after lossy conversion), when the path has one, and its stat. -/
structure RawEntry where
  baseName : Option String
  stat : StatInfo
deriving DecidableEq, Repr

/-- Listing entry, as in the source struct SftpEntry. -/
structure SftpEntry where
  name : String
  isDir : Bool
  size : Option Nat
  modified : Option Nat
  perm : Option Nat
deriving DecidableEq, Repr

/-- Path normalization of sftp_list_dir: a whitespace-only path becomes
a dot, any other path is trimmed. -/
def cleanPath (path : String) : String :=
  if strTrim path = "" then "." else strTrim path

/-- Root sentinel test of sftp_list_dir on the cleaned path. -/
def isRootPath (p : String) : Bool :=
  p == "/" || p == "." || p == ""

/-- Conversion and filtering of one raw entry: entries without a
basename and entries named empty, dot or dot-dot are dropped; the rest
become listing entries. -/
def rawToEntry (r : RawEntry) : Option SftpEntry :=
  match r.baseName with
  | none => none
  | some name =>
    if name = "" ∨ name = "." then none
    else if name = ".." then none
    else some ⟨name, r.stat.isDir, r.stat.size, r.stat.mtime, r.stat.perm⟩

/-- Synthetic parent entry prepended for non-root paths. -/
def parentEntry : SftpEntry :=
  ⟨"..", true, none, none, none⟩

/-- Character comparison by code point, as Rust compares strings. -/
def charCmp (a b : Char) : Ordering :=
  compare a.toNat b.toNat

/-- Lexicographic comparison of character lists, as Rust Ord for str
(code-point order coincides with UTF-8 byte order). -/
def strCmpAux : List Char → List Char → Ordering
  | [], [] => .eq
  | [], _ :: _ => .lt
  | _ :: _, [] => .gt
  | a :: as, b :: bs =>
    match charCmp a b with
    | .eq => strCmpAux as bs
    | o => o

/-- String comparison, as Rust Ord for String. -/
def strCmp (a b : String) : Ordering :=
  strCmpAux a.data b.data

/-- The sort comparator of sftp_list_dir: the dot-dot entry first, then
directories before files, then case-insensitive name order. -/
def entryCmp (a b : SftpEntry) : Ordering :=
  if a.name = ".." then .lt
  else if b.name = ".." then .gt
  else
    match a.isDir, b.isDir with
    | true, false => .lt
    | false, true => .gt
    | _, _ => strCmp (strLower a.name) (strLower b.name)

/-- Boolean order underlying the comparator sort: a precedes b when the
comparator does not order a strictly after b. -/
def entryLe (a b : SftpEntry) : Bool :=
  entryCmp a b != Ordering.gt

/-- Model of SshManager::sftp_list_dir on the oracle readdir result:
normalize the path, convert and filter the raw entries, prepend the
synthetic parent entry when the cleaned path is not a root sentinel,
and stably sort with the comparator (Rust Vec::sort_by is a stable
sort, as is mergeSort). -/
def sftpListDir (path : String) (raw : List RawEntry) : List SftpEntry :=
  let output := raw.filterMap rawToEntry
  let withParent :=
    if isRootPath (cleanPath path) then output else parentEntry :: output
  withParent.mergeSort entryLe

/-! ### Comparator lemmas -/

theorem strCmpAux_swap : ∀ a b : List Char, strCmpAux b a = (strCmpAux a b).swap
  | [], [] => rfl
  | [], _ :: _ => rfl
  | _ :: _, [] => rfl
  | a :: as, b :: bs => by
    simp only [strCmpAux, charCmp]
    rcases hab : compare a.toNat b.toNat with _ | _ | _
    · have hba : compare b.toNat a.toNat = .gt :=
        Nat.compare_eq_gt.mpr (Nat.compare_eq_lt.mp hab)
      rw [hba]
      rfl
    · have hba : compare b.toNat a.toNat = .eq :=
        Nat.compare_eq_eq.mpr (Nat.compare_eq_eq.mp hab).symm
      rw [hba]
      exact strCmpAux_swap as bs
    · have hba : compare b.toNat a.toNat = .lt :=
        Nat.compare_eq_lt.mpr (Nat.compare_eq_gt.mp hab)
      rw [hba]
      rfl

theorem strCmpAux_gt_of_not_gt {a b : List Char} (h : strCmpAux a b ≠ .gt)
    (hne : strCmpAux a b ≠ .eq) : strCmpAux b a = .gt := by
  rw [strCmpAux_swap]
  rcases hab : strCmpAux a b with _ | _ | _
  · rfl
  · exact absurd hab hne
  · exact absurd hab h

theorem strCmpAux_le_total (a b : List Char) :
    strCmpAux a b ≠ .gt ∨ strCmpAux b a ≠ .gt := by
  have hs := strCmpAux_swap a b
  rcases hab : strCmpAux a b with _ | _ | _ <;> rw [hab] at hs <;>
    simp [hab, hs, Ordering.swap]

theorem strCmpAux_le_trans : ∀ a b c : List Char,
    strCmpAux a b ≠ .gt → strCmpAux b c ≠ .gt → strCmpAux a c ≠ .gt
  | [], b, c, _, _ => by cases c <;> simp [strCmpAux]
  | _ :: _, [], _, h1, _ => by simp [strCmpAux] at h1
  | _ :: _, _ :: _, [], _, h2 => by simp [strCmpAux] at h2
  | x :: xs, y :: ys, z :: zs, h1, h2 => by
    simp only [strCmpAux, charCmp] at h1 h2 ⊢
    rcases hxy : compare x.toNat y.toNat with _ | _ | _ <;> rw [hxy] at h1 <;>
      rcases hyz : compare y.toNat z.toNat with _ | _ | _ <;> rw [hyz] at h2
    · have : x.toNat < z.toNat :=
        Nat.lt_trans (Nat.compare_eq_lt.mp hxy) (Nat.compare_eq_lt.mp hyz)
      rw [Nat.compare_eq_lt.mpr this]
      simp
    · have heq := Nat.compare_eq_eq.mp hyz
      have : x.toNat < z.toNat := heq ▸ Nat.compare_eq_lt.mp hxy
      rw [Nat.compare_eq_lt.mpr this]
      simp
    · exact absurd rfl h2
    · have heq := Nat.compare_eq_eq.mp hxy
      have : x.toNat < z.toNat := heq ▸ Nat.compare_eq_lt.mp hyz
      rw [Nat.compare_eq_lt.mpr this]
      simp
    · have hxy2 := Nat.compare_eq_eq.mp hxy
      have hyz2 := Nat.compare_eq_eq.mp hyz
      have : x.toNat = z.toNat := hxy2.trans hyz2
      rw [Nat.compare_eq_eq.mpr this]
      exact strCmpAux_le_trans xs ys zs h1 h2
    · exact absurd rfl h2
    · exact absurd rfl h1
    · exact absurd rfl h1
    · exact absurd rfl h1

theorem ne_gt_of_bne_true {x : Ordering} (h : (x != Ordering.gt) = true) :
    x ≠ .gt := by
  cases x
  · decide
  · decide
  · exact absurd h (by decide)

theorem bne_gt_true_of_ne {x : Ordering} (h : x ≠ .gt) :
    (x != Ordering.gt) = true := by
  cases x
  · rfl
  · rfl
  · exact absurd rfl h

theorem entryCmp_parent_left {a : SftpEntry} (b : SftpEntry) (ha : a.name = "..") :
    entryCmp a b = .lt := by
  unfold entryCmp
  rw [if_pos ha]

theorem entryCmp_parent_right {a b : SftpEntry} (ha : a.name ≠ "..")
    (hb : b.name = "..") : entryCmp a b = .gt := by
  unfold entryCmp
  rw [if_neg ha, if_pos hb]

theorem entryCmp_dir_file {a b : SftpEntry} (ha : a.name ≠ "..") (hb : b.name ≠ "..")
    (hda : a.isDir = true) (hdb : b.isDir = false) : entryCmp a b = .lt := by
  unfold entryCmp
  rw [if_neg ha, if_neg hb, hda, hdb]

theorem entryCmp_file_dir {a b : SftpEntry} (ha : a.name ≠ "..") (hb : b.name ≠ "..")
    (hda : a.isDir = false) (hdb : b.isDir = true) : entryCmp a b = .gt := by
  unfold entryCmp
  rw [if_neg ha, if_neg hb, hda, hdb]

theorem entryCmp_same_dir {a b : SftpEntry} (ha : a.name ≠ "..") (hb : b.name ≠ "..")
    (hd : a.isDir = b.isDir) :
    entryCmp a b = strCmp (strLower a.name) (strLower b.name) := by
  unfold entryCmp
  rw [if_neg ha, if_neg hb]
  cases hda : a.isDir <;> rw [hda] at hd <;> rw [← hd]

/-- Totality of the sort order: the comparator never orders both ways
strictly. -/
theorem entryLe_total (a b : SftpEntry) : entryLe a b || entryLe b a := by
  unfold entryLe
  by_cases ha : a.name = ".."
  · rw [entryCmp_parent_left b ha]
    rfl
  · by_cases hb : b.name = ".."
    · rw [entryCmp_parent_right ha hb, entryCmp_parent_left a hb]
      rfl
    · cases hda : a.isDir <;> cases hdb : b.isDir
      · rw [entryCmp_same_dir ha hb (hda.trans hdb.symm),
          entryCmp_same_dir hb ha (hdb.trans hda.symm)]
        rcases strCmpAux_le_total (strLower a.name).data (strLower b.name).data with h | h
        · have h2 : strCmp (strLower a.name) (strLower b.name) ≠ .gt := h
          rw [bne_gt_true_of_ne h2]
          rfl
        · have h2 : strCmp (strLower b.name) (strLower a.name) ≠ .gt := h
          rw [bne_gt_true_of_ne h2]
          rw [Bool.or_true]
      · rw [entryCmp_file_dir ha hb hda hdb, entryCmp_dir_file hb ha hdb hda]
        rfl
      · rw [entryCmp_dir_file ha hb hda hdb]
        rfl
      · rw [entryCmp_same_dir ha hb (hda.trans hdb.symm),
          entryCmp_same_dir hb ha (hdb.trans hda.symm)]
        rcases strCmpAux_le_total (strLower a.name).data (strLower b.name).data with h | h
        · have h2 : strCmp (strLower a.name) (strLower b.name) ≠ .gt := h
          rw [bne_gt_true_of_ne h2]
          rfl
        · have h2 : strCmp (strLower b.name) (strLower a.name) ≠ .gt := h
          rw [bne_gt_true_of_ne h2]
          rw [Bool.or_true]

/-- Transitivity of the sort order. -/
theorem entryLe_trans (a b c : SftpEntry)
    (h1 : entryLe a b) (h2 : entryLe b c) : entryLe a c := by
  unfold entryLe at h1 h2 ⊢
  by_cases ha : a.name = ".."
  · rw [entryCmp_parent_left c ha]
    rfl
  · by_cases hb : b.name = ".."
    · rw [entryCmp_parent_right ha hb] at h1
      exact absurd h1 (by decide)
    · by_cases hc : c.name = ".."
      · rw [entryCmp_parent_right hb hc] at h2
        exact absurd h2 (by decide)
      · cases hda : a.isDir <;> cases hdb : b.isDir <;> cases hdc : c.isDir
        · rw [entryCmp_same_dir ha hb (hda.trans hdb.symm)] at h1
          rw [entryCmp_same_dir hb hc (hdb.trans hdc.symm)] at h2
          rw [entryCmp_same_dir ha hc (hda.trans hdc.symm)]
          exact bne_gt_true_of_ne
            (strCmpAux_le_trans _ _ _ (ne_gt_of_bne_true h1) (ne_gt_of_bne_true h2))
        · rw [entryCmp_file_dir hb hc hdb hdc] at h2
          exact absurd h2 (by decide)
        · rw [entryCmp_file_dir ha hb hda hdb] at h1
          exact absurd h1 (by decide)
        · rw [entryCmp_file_dir ha hb hda hdb] at h1
          exact absurd h1 (by decide)
        · rw [entryCmp_dir_file ha hc hda hdc]
          rfl
        · rw [entryCmp_file_dir hb hc hdb hdc] at h2
          exact absurd h2 (by decide)
        · rw [entryCmp_dir_file ha hc hda hdc]
          rfl
        · rw [entryCmp_same_dir ha hb (hda.trans hdb.symm)] at h1
          rw [entryCmp_same_dir hb hc (hdb.trans hdc.symm)] at h2
          rw [entryCmp_same_dir ha hc (hda.trans hdc.symm)]
          exact bne_gt_true_of_ne
            (strCmpAux_le_trans _ _ _ (ne_gt_of_bne_true h1) (ne_gt_of_bne_true h2))

/-- Entries surviving the filter never carry the reserved names. -/
theorem rawToEntry_name_ok {r : RawEntry} {e : SftpEntry} (h : rawToEntry r = some e) :
    e.name ≠ ".." ∧ e.name ≠ "." ∧ e.name ≠ "" := by
  unfold rawToEntry at h
  split at h
  · exact absurd h (by simp)
  · split at h
    · exact absurd h (by simp)
    · split at h
      · exact absurd h (by simp)
      · rename_i h1 h2
        push_neg at h1
        cases h
        exact ⟨h2, h1.2, h1.1⟩

/-- The synthetic parent is never produced by the filter. -/
theorem parentEntry_not_mem_filtered (raw : List RawEntry) :
    parentEntry ∉ raw.filterMap rawToEntry := by
  intro hmem
  obtain ⟨r, _, hr⟩ := List.mem_filterMap.mp hmem
  exact absurd rfl (rawToEntry_name_ok hr).1

/-- Sorting a list headed by the parent entry, whose other elements are
never named dot-dot, keeps the parent entry first. -/
theorem mergeSort_parent_head (l : List SftpEntry)
    (hl : ∀ e ∈ l, e.name ≠ "..") :
    ((parentEntry :: l).mergeSort entryLe).head? = some parentEntry := by
  have hperm := List.mergeSort_perm (parentEntry :: l) entryLe
  have hsorted := List.sorted_mergeSort entryLe_trans entryLe_total
    (parentEntry :: l)
  cases hs : (parentEntry :: l).mergeSort entryLe with
  | nil =>
    have := hperm.length_eq
    rw [hs] at this
    simp at this
  | cons x xs =>
    rw [hs] at hperm hsorted
    by_cases hx : x = parentEntry
    · rw [hx]
      rfl
    · exfalso
      have hxl : x ∈ parentEntry :: l := hperm.mem_iff.mp (List.mem_cons_self x xs)
      have hxname : x.name ≠ ".." := by
        rcases List.mem_cons.mp hxl with h | h
        · exact absurd h hx
        · exact hl x h
      have hpmem : parentEntry ∈ x :: xs :=
        hperm.mem_iff.mpr (List.mem_cons_self parentEntry l)
      have hpxs : parentEntry ∈ xs := by
        rcases List.mem_cons.mp hpmem with h | h
        · exact absurd h.symm hx
        · exact h
      have hle : entryLe x parentEntry := (List.pairwise_cons.mp hsorted).1 _ hpxs
      rw [entryLe, entryCmp_parent_right hxname rfl] at hle
      exact absurd hle (by decide)

/-! ### Claim C3 -/

/-- C3: listDir treats a whitespace-only path as dot; its result is a
permutation of the filtered entries (entries whose basename is missing,
empty, dot or dot-dot are dropped) with the synthetic parent prepended
exactly when the cleaned path is not a root sentinel; the result is
sorted by the listing order, whose meaning is spelled out in the last
conjunct: parent entry first, then directories before files, then
case-insensitive name order; and for a non-root path the parent entry
is the first element. -/
theorem sftp_list_dir_spec (path : String) (raw : List RawEntry) :
    (strTrim path = "" → cleanPath path = "." ∧
      sftpListDir path raw = sftpListDir "." raw) ∧
    (sftpListDir path raw).Perm
      ((if isRootPath (cleanPath path) then [] else [parentEntry])
        ++ raw.filterMap rawToEntry) ∧
    (sftpListDir path raw).Pairwise (fun a b => entryLe a b = true) ∧
    (parentEntry ∈ sftpListDir path raw ↔ isRootPath (cleanPath path) = false) ∧
    (isRootPath (cleanPath path) = false →
      (sftpListDir path raw).head? = some parentEntry) ∧
    (∀ a b : SftpEntry, entryLe a b = true ↔
      (a.name = ".." ∨ (b.name ≠ ".." ∧
        ((a.isDir = true ∧ b.isDir = false) ∨
         (a.isDir = b.isDir ∧
          strCmp (strLower a.name) (strLower b.name) ≠ .gt))))) := by
  have hperm :
      (sftpListDir path raw).Perm
        ((if isRootPath (cleanPath path) then [] else [parentEntry])
          ++ raw.filterMap rawToEntry) := by
    unfold sftpListDir
    cases hroot : isRootPath (cleanPath path)
    · simpa using List.mergeSort_perm (parentEntry :: raw.filterMap rawToEntry) entryLe
    · simpa using List.mergeSort_perm (raw.filterMap rawToEntry) entryLe
  refine ⟨?_, hperm, ?_, ?_, ?_, ?_⟩
  · intro hblank
    have h1 : cleanPath path = "." := by simp [cleanPath, hblank]
    refine ⟨h1, ?_⟩
    unfold sftpListDir
    rw [h1, show cleanPath "." = "." from by decide]
  · exact List.sorted_mergeSort entryLe_trans entryLe_total _
  · constructor
    · intro hmem
      have hmem2 := hperm.mem_iff.mp hmem
      cases hroot : isRootPath (cleanPath path)
      · rfl
      · rw [hroot] at hmem2
        simp only [List.nil_append, if_pos rfl] at hmem2
        exact absurd hmem2 (parentEntry_not_mem_filtered raw)
    · intro hroot
      apply hperm.mem_iff.mpr
      rw [hroot]
      simp
  · intro hroot
    unfold sftpListDir
    rw [hroot]
    simp only [Bool.false_eq_true, if_false]
    apply mergeSort_parent_head
    intro e he
    obtain ⟨r, _, hr⟩ := List.mem_filterMap.mp he
    exact (rawToEntry_name_ok hr).1
  · intro a b
    constructor
    · intro hle
      by_cases ha : a.name = ".."
      · exact Or.inl ha
      · by_cases hb : b.name = ".."
        · rw [entryLe, entryCmp_parent_right ha hb] at hle
          exact absurd hle (by decide)
        · refine Or.inr ⟨hb, ?_⟩
          cases hda : a.isDir <;> cases hdb : b.isDir
          · rw [entryLe, entryCmp_same_dir ha hb (hda.trans hdb.symm)] at hle
            exact Or.inr ⟨rfl, ne_gt_of_bne_true hle⟩
          · rw [entryLe, entryCmp_file_dir ha hb hda hdb] at hle
            exact absurd hle (by decide)
          · exact Or.inl ⟨rfl, rfl⟩
          · rw [entryLe, entryCmp_same_dir ha hb (hda.trans hdb.symm)] at hle
            exact Or.inr ⟨rfl, ne_gt_of_bne_true hle⟩
    · intro hcases
      rcases hcases with ha | ⟨hb, hrest⟩
      · rw [entryLe, entryCmp_parent_left b ha]
        rfl
      · by_cases ha : a.name = ".."
        · rw [entryLe, entryCmp_parent_left b ha]
          rfl
        · rcases hrest with ⟨hda, hdb⟩ | ⟨hd, hcmp⟩
          · rw [entryLe, entryCmp_dir_file ha hb hda hdb]
            rfl
          · rw [entryLe, entryCmp_same_dir ha hb hd]
            exact bne_gt_true_of_ne hcmp

/-- Oracle readdir result used by the C3 witness: dot and dot-dot
entries, two files, one directory. -/
def rawFixture : List RawEntry :=
  [⟨some ".", ⟨true, none, none, none⟩⟩,
   ⟨some "..", ⟨true, none, none, none⟩⟩,
   ⟨some "a", ⟨false, some 3, none, none⟩⟩,
   ⟨some "B", ⟨false, some 4, none, none⟩⟩,
   ⟨some "d", ⟨true, none, none, none⟩⟩]

/-- C3 witness: the theorem evaluated at a non-root path with the fixture
listing puts the synthetic parent first. -/
theorem sftp_list_dir_spec_witness :
    (sftpListDir "dir" rawFixture).head? = some parentEntry ∧
    (parentEntry ∈ sftpListDir "dir" rawFixture ↔
      isRootPath (cleanPath "dir") = false) :=
  ⟨(sftp_list_dir_spec "dir" rawFixture).2.2.2.2.1 (by decide),
   (sftp_list_dir_spec "dir" rawFixture).2.2.2.1⟩

end NoTerm
